import Mathlib

/-!
Verification of the request-plane subsystem of riley_cms.

This file gives a shallow embedding of the functions of the repository that
the specification's claims talk about, and proves or refutes each claim.

Conventions of the embedding:
- Rust machine integers (u8, u16, u64, usize) become Nat; chrono timestamps
  become Int (seconds, sign included).
- Rust HashMap values iterated in arbitrary order become Lean lists, with the
  key-uniqueness of the map stated as a Nodup hypothesis where it matters.
- The SHA-256 digest of the external sha2 crate is a parameter of type
  List Nat to List Nat; the only fact used about it is that its output has
  32 bytes, which is a hypothesis where needed.
- Rust str operations are re-implemented on the character list of the
  string, because the byte-position-based core String functions do not
  reduce in the kernel.  UTF-8 byte serialization of a string is modelled
  by its codepoint sequence (an order-preserving injection).
-/

set_option maxRecDepth 4000

/-! ## String utilities (models of Rust str operations) -/

/-- Model of Rust str comparison (Ord for String), character by character.
Codepoint order coincides with UTF-8 byte order. -/
def charListCmp : List Char → List Char → Ordering
  | [], [] => Ordering.eq
  | [], _ :: _ => Ordering.lt
  | _ :: _, [] => Ordering.gt
  | a :: as, b :: bs =>
    if a < b then Ordering.lt
    else if b < a then Ordering.gt
    else charListCmp as bs

/-- Three-way comparison on strings, mirroring Rust String cmp. -/
def strCmp (a b : String) : Ordering := charListCmp a.data b.data

/-- Boolean less-or-equal on strings, used as the sort relation for slugs. -/
def strLeB (a b : String) : Bool :=
  match strCmp a b with
  | Ordering.gt => false
  | _ => true

/-- Tests whether the first character list is a prefix of the second
(model of Rust str starts_with and strip_prefix matching). -/
def isCharPrefix : List Char → List Char → Bool
  | [], _ => true
  | _ :: _, [] => false
  | a :: as, b :: bs => a == b && isCharPrefix as bs

/-- Tests whether the needle occurs as a contiguous substring of the
haystack (model of Rust str contains). -/
def charListHas (needle : List Char) : List Char → Bool
  | [] => isCharPrefix needle []
  | c :: rest => isCharPrefix needle (c :: rest) || charListHas needle rest

/-- Substring test on strings (model of Rust str contains). -/
def substrOccurs (needle hay : String) : Bool := charListHas needle.data hay.data

/-- Model of Rust str trim: drop whitespace from both ends. -/
def trimChars (cs : List Char) : List Char :=
  ((cs.dropWhile Char.isWhitespace).reverse.dropWhile Char.isWhitespace).reverse

/-- Model of Rust str trim on strings. -/
def strTrim (s : String) : String := String.mk (trimChars s.data)

/-- Byte serialization of a string, modelled by its codepoint sequence. -/
def strBytes (s : String) : List Nat := s.data.map Char.toNat

/-! ## IP safety filter (riley-cms-core/src/security.rs) -/

/-- An IPv4 address as its four octets. -/
structure Ipv4 where
  a : Nat
  b : Nat
  c : Nat
  d : Nat
deriving DecidableEq

/-- An IPv6 address as its eight 16-bit segments. -/
structure Ipv6 where
  s0 : Nat
  s1 : Nat
  s2 : Nat
  s3 : Nat
  s4 : Nat
  s5 : Nat
  s6 : Nat
  s7 : Nat
deriving DecidableEq

/-- Model of std net IpAddr. -/
inductive IpAddr where
  | V4 (v : Ipv4)
  | V6 (v : Ipv6)
deriving DecidableEq

/-- Model of Rust std Ipv4Addr is_loopback: 127.0.0.0/8. -/
def Ipv4.is_loopback (v : Ipv4) : Bool := v.a == 127

/-- Model of Rust std Ipv4Addr is_unspecified: 0.0.0.0. -/
def Ipv4.is_unspecified (v : Ipv4) : Bool :=
  v.a == 0 && v.b == 0 && v.c == 0 && v.d == 0

/-- Model of Rust std Ipv4Addr is_multicast: 224.0.0.0/4. -/
def Ipv4.is_multicast (v : Ipv4) : Bool :=
  decide (224 ≤ v.a) && decide (v.a ≤ 239)

/-- Model of Rust std Ipv6Addr is_loopback: the address ::1. -/
def Ipv6.is_loopback (v : Ipv6) : Bool :=
  v.s0 == 0 && v.s1 == 0 && v.s2 == 0 && v.s3 == 0 &&
  v.s4 == 0 && v.s5 == 0 && v.s6 == 0 && v.s7 == 1

/-- Model of Rust std Ipv6Addr is_unspecified: the address ::. -/
def Ipv6.is_unspecified (v : Ipv6) : Bool :=
  v.s0 == 0 && v.s1 == 0 && v.s2 == 0 && v.s3 == 0 &&
  v.s4 == 0 && v.s5 == 0 && v.s6 == 0 && v.s7 == 0

/-- Model of Rust std Ipv6Addr is_multicast: ff00::/8 via the segment mask. -/
def Ipv6.is_multicast (v : Ipv6) : Bool :=
  (v.s0 &&& 0xff00) == 0xff00

/-- Model of Rust std Ipv6Addr to_ipv4_mapped: an address of the form
::ffff:a.b.c.d yields the IPv4 address a.b.c.d, anything else none. -/
def Ipv6.to_ipv4_mapped (v : Ipv6) : Option Ipv4 :=
  if v.s0 == 0 && v.s1 == 0 && v.s2 == 0 && v.s3 == 0 &&
     v.s4 == 0 && v.s5 == 0xffff then
    some ⟨v.s6 / 256, v.s6 % 256, v.s7 / 256, v.s7 % 256⟩
  else none

/-- The IPv4 arm of is_safe_ip from security.rs.  The loopback, unspecified
and multicast checks are the IpAddr-level checks of the source, which
delegate to the Ipv4Addr predicates for a V4 address. -/
def is_safe_ipv4 (v : Ipv4) : Bool :=
  if v.is_loopback || v.is_unspecified || v.is_multicast then false
  else if v.a == 10 then false
  else if v.a == 172 && decide (16 ≤ v.b) && decide (v.b ≤ 31) then false
  else if v.a == 192 && v.b == 168 then false
  else if v.a == 169 && v.b == 254 then false
  else if v.a == 100 && decide (64 ≤ v.b) && decide (v.b ≤ 127) then false
  else true

/-- The IPv6 arm of is_safe_ip from security.rs.  The recursive call of the
source on the canonicalized IPv4-mapped address is the V4 arm. -/
def is_safe_ipv6 (v : Ipv6) : Bool :=
  if v.is_loopback || v.is_unspecified || v.is_multicast then false
  else
    match v.to_ipv4_mapped with
    | some v4 => is_safe_ipv4 v4
    | none =>
      if (v.s0 &&& 0xfe00) == 0xfc00 then false
      else if (v.s0 &&& 0xffc0) == 0xfe80 then false
      else if (v.s0 &&& 0xffc0) == 0xfec0 then false
      else true

/-- Model of is_safe_ip from riley-cms-core/src/security.rs. -/
def is_safe_ip : IpAddr → Bool
  | IpAddr.V4 v => is_safe_ipv4 v
  | IpAddr.V6 v => is_safe_ipv6 v

/-- The IPv6 address ::ffff:a.b.c.d (IPv4-mapped form of a.b.c.d). -/
def mappedV6 (a b c d : Nat) : Ipv6 :=
  ⟨0, 0, 0, 0, 0, 0xffff, a * 256 + b, c * 256 + d⟩

/-- Octet and segment bounds of a well-formed address. -/
def ip_wf : IpAddr → Prop
  | IpAddr.V4 v => v.a < 256 ∧ v.b < 256 ∧ v.c < 256 ∧ v.d < 256
  | IpAddr.V6 v => v.s0 < 65536 ∧ v.s1 < 65536 ∧ v.s2 < 65536 ∧ v.s3 < 65536 ∧
      v.s4 < 65536 ∧ v.s5 < 65536 ∧ v.s6 < 65536 ∧ v.s7 < 65536

/-- Modelled from the spec: the unsafe address classes of section 4.A,
written as the CIDR ranges the spec names (loopback, unspecified, multicast,
10/8, 172.16/12, 192.168/16, 169.254/16, 100.64/10 for IPv4; loopback,
unspecified, multicast ff00::/8, fc00::/7, fe80::/10, fec0::/10 for IPv6;
an IPv4-mapped address is canonicalized and re-evaluated). -/
def spec_unsafe_v4 (v : Ipv4) : Prop :=
  v.a = 127 ∨
  (v.a = 0 ∧ v.b = 0 ∧ v.c = 0 ∧ v.d = 0) ∨
  (224 ≤ v.a ∧ v.a ≤ 239) ∨
  v.a = 10 ∨
  (v.a = 172 ∧ 16 ≤ v.b ∧ v.b ≤ 31) ∨
  (v.a = 192 ∧ v.b = 168) ∨
  (v.a = 169 ∧ v.b = 254) ∨
  (v.a = 100 ∧ 64 ≤ v.b ∧ v.b ≤ 127)

/-- Modelled from the spec: unsafe classes over a full address; see
spec_unsafe_v4. -/
def spec_unsafe : IpAddr → Prop
  | IpAddr.V4 v => spec_unsafe_v4 v
  | IpAddr.V6 v =>
    if v.s0 = 0 ∧ v.s1 = 0 ∧ v.s2 = 0 ∧ v.s3 = 0 ∧ v.s4 = 0 ∧ v.s5 = 0xffff then
      spec_unsafe_v4 ⟨v.s6 / 256, v.s6 % 256, v.s7 / 256, v.s7 % 256⟩
    else
      (v.s0 = 0 ∧ v.s1 = 0 ∧ v.s2 = 0 ∧ v.s3 = 0 ∧ v.s4 = 0 ∧ v.s5 = 0 ∧
        v.s6 = 0 ∧ v.s7 = 1) ∨
      (v.s0 = 0 ∧ v.s1 = 0 ∧ v.s2 = 0 ∧ v.s3 = 0 ∧ v.s4 = 0 ∧ v.s5 = 0 ∧
        v.s6 = 0 ∧ v.s7 = 0) ∨
      0xff00 ≤ v.s0 ∨
      (0xfc00 ≤ v.s0 ∧ v.s0 ≤ 0xfdff) ∨
      (0xfe80 ≤ v.s0 ∧ v.s0 ≤ 0xfebf) ∨
      (0xfec0 ≤ v.s0 ∧ v.s0 ≤ 0xfeff)

/-! ## Content data model (riley-cms-core/src/types.rs, riley-core/src/content.rs) -/

/-- A blog post with full content; timestamps are Int, field set as in
types.rs. -/
structure Post where
  slug : String
  title : String
  subtitle : Option String
  preview_text : String
  preview_image : Option String
  tags : Option (List String)
  goes_live_at : Option Int
  series_slug : Option String
  content : String
  order : Option Int
deriving DecidableEq

/-- Post summary without content, as produced for list endpoints. -/
structure PostSummary where
  slug : String
  title : String
  subtitle : Option String
  preview_text : String
  preview_image : Option String
  tags : Option (List String)
  goes_live_at : Option Int
  series_slug : Option String
deriving DecidableEq

/-- Conversion From Post for PostSummary as in types.rs. -/
def postSummaryOf (p : Post) : PostSummary :=
  ⟨p.slug, p.title, p.subtitle, p.preview_text, p.preview_image, p.tags,
    p.goes_live_at, p.series_slug⟩

/-- Series configuration from series.toml. -/
structure SeriesConfig where
  title : String
  description : Option String
  preview_image : Option String
  goes_live_at : Option Int
deriving DecidableEq

/-- Internal series data of the content cache. -/
structure SeriesData where
  slug : String
  config : SeriesConfig
  post_slugs : List String
deriving DecidableEq

/-- Series summary for list endpoints. -/
structure SeriesSummary where
  slug : String
  title : String
  description : Option String
  preview_image : Option String
  goes_live_at : Option Int
  post_count : Nat
deriving DecidableEq

/-- Post summary within a series (includes order). -/
structure SeriesPostSummary where
  slug : String
  title : String
  subtitle : Option String
  preview_text : String
  preview_image : Option String
  tags : Option (List String)
  goes_live_at : Option Int
  order : Option Int
deriving DecidableEq

/-- A series with its member posts inlined. -/
structure Series where
  slug : String
  title : String
  description : Option String
  preview_image : Option String
  goes_live_at : Option Int
  posts : List SeriesPostSummary
deriving DecidableEq

/-- Options for listing content. -/
structure ListOptions where
  include_drafts : Bool
  include_scheduled : Bool
  limit : Option Nat
  offset : Option Nat
deriving DecidableEq

/-- Paginated list result. -/
structure ListResult (α : Type) where
  items : List α
  total : Nat
  limit : Nat
  offset : Nat
deriving DecidableEq

/-- The content cache: post map and series map, modelled as lists whose
slug keys are unique (HashMap key uniqueness becomes a Nodup hypothesis). -/
structure ContentCache where
  posts : List Post
  series : List SeriesData
deriving DecidableEq

/-- Model of ContentCache is_visible from content.rs: drafts are included
iff include_drafts, scheduled posts iff include_scheduled, live posts
always. -/
def is_visible (goes_live_at : Option Int) (opts : ListOptions) (now : Int) : Bool :=
  match goes_live_at with
  | none => opts.include_drafts
  | some date => if date > now then opts.include_scheduled else true

/-- The comparator passed to sort_by in list_posts, transcribed from
content.rs: the match is on the pair of the second argument's date and the
first argument's date. -/
def postCmp (a b : Post) : Ordering :=
  match b.goes_live_at, a.goes_live_at with
  | some b_date, some a_date => compare b_date a_date
  | some _, none => Ordering.lt
  | none, some _ => Ordering.gt
  | none, none => strCmp a.slug b.slug

/-- The comparator passed to sort_by in list_series, transcribed from
content.rs. -/
def seriesCmp (a b : SeriesData) : Ordering :=
  match b.config.goes_live_at, a.config.goes_live_at with
  | some b_date, some a_date => compare b_date a_date
  | some _, none => Ordering.lt
  | none, some _ => Ordering.gt
  | none, none => strCmp a.slug b.slug

/-- Rust slice sort_by is a stable sort ascending in the comparator; a
stable sort is uniquely determined by the comparator and the input order,
so we model it with insertion sort, which is stable. -/
def sortByCmp {α : Type} (cmp : α → α → Ordering) (l : List α) : List α :=
  List.insertionSort (fun a b => (match cmp a b with
    | Ordering.gt => false
    | _ => true) = true) l

/-- Maximum number of items returned in a single list request. -/
def MAX_PAGE_SIZE : Nat := 500

/-- The visibility filter stage of list_posts. -/
def list_posts_filtered (posts : List Post) (opts : ListOptions) (now : Int) : List Post :=
  posts.filter (fun post => is_visible post.goes_live_at opts now)

/-- Model of ContentCache list_posts from content.rs: filter by
visibility, sort with postCmp, then paginate with skip and take. -/
def list_posts (posts : List Post) (opts : ListOptions) (now : Int) :
    ListResult PostSummary :=
  let limit := min (opts.limit.getD 50) MAX_PAGE_SIZE
  let offset := opts.offset.getD 0
  let filtered := list_posts_filtered posts opts now
  let sorted := sortByCmp postCmp filtered
  let total := filtered.length
  let items := ((sorted.drop offset).take limit).map postSummaryOf
  ⟨items, total, limit, offset⟩

/-- Model of ContentCache get_post from content.rs: a plain map lookup,
with no visibility filtering. -/
def get_post (posts : List Post) (slug : String) : Option Post :=
  posts.find? (fun p => p.slug == slug)

/-- The visibility filter stage of list_series. -/
def list_series_filtered (series : List SeriesData) (opts : ListOptions) (now : Int) :
    List SeriesData :=
  series.filter (fun s => is_visible s.config.goes_live_at opts now)

/-- Summary projection used by list_series. -/
def seriesSummaryOf (s : SeriesData) : SeriesSummary :=
  ⟨s.slug, s.config.title, s.config.description, s.config.preview_image,
    s.config.goes_live_at, s.post_slugs.length⟩

/-- Model of ContentCache list_series from content.rs. -/
def list_series (series : List SeriesData) (opts : ListOptions) (now : Int) :
    ListResult SeriesSummary :=
  let limit := min (opts.limit.getD 50) MAX_PAGE_SIZE
  let offset := opts.offset.getD 0
  let filtered := list_series_filtered series opts now
  let sorted := sortByCmp seriesCmp filtered
  let total := filtered.length
  let items := ((sorted.drop offset).take limit).map seriesSummaryOf
  ⟨items, total, limit, offset⟩

/-- Member summary projection used by get_series. -/
def seriesPostSummaryOf (p : Post) : SeriesPostSummary :=
  ⟨p.slug, p.title, p.subtitle, p.preview_text, p.preview_image, p.tags,
    p.goes_live_at, p.order⟩

/-- The Series value built by get_series for a given series datum,
inlining the member posts present in the post map. -/
def seriesWithPosts (posts : List Post) (sd : SeriesData) : Series :=
  ⟨sd.slug, sd.config.title, sd.config.description, sd.config.preview_image,
    sd.config.goes_live_at,
    sd.post_slugs.filterMap (fun ps => (get_post posts ps).map seriesPostSummaryOf)⟩

/-- Model of ContentCache get_series from content.rs: a plain map lookup
with member inlining, with no visibility filtering. -/
def get_series (posts : List Post) (series : List SeriesData) (slug : String) :
    Option Series :=
  match series.find? (fun s => s.slug == slug) with
  | none => none
  | some sd => some (seriesWithPosts posts sd)

/-! ## ETag computation (ContentCache compute_etag in content.rs) -/

/-- Hex digit character for a value below 16. -/
def hexDigit (n : Nat) : Char := ("0123456789abcdef".data).getD n 'x'

/-- The two hex characters the hex crate emits for one byte. -/
def hexByte (b : Nat) : List Char := [hexDigit (b / 16), hexDigit (b % 16)]

/-- Hex encoding of a byte list (model of hex encode). -/
def hexEncode (bs : List Nat) : String := String.mk (bs.flatMap hexByte)

/-- Sorting of slug keys (Vec sort in the source; sorting by a total order
is independent of the algorithm, we use insertion sort). -/
def sortStr (l : List String) : List String :=
  List.insertionSort (fun a b => strLeB a b = true) l

/-- Model of ContentCache compute_etag: hash the sorted post slugs, each
with the post's content bytes, then the sorted series slugs, hex-encode and
wrap in ASCII double quotes.  The digest parameter stands for the SHA-256
function of the external sha2 crate. -/
def compute_etag (digest : List Nat → List Nat)
    (posts : List Post) (series : List SeriesData) : String :=
  let post_keys := sortStr (posts.map Post.slug)
  let post_bytes := post_keys.flatMap (fun key =>
    match get_post posts key with
    | some post => strBytes key ++ strBytes post.content
    | none => [])
  let series_keys := sortStr (series.map SeriesData.slug)
  let series_bytes := series_keys.flatMap strBytes
  "\"" ++ hexEncode (digest (post_bytes ++ series_bytes)) ++ "\""

/-! ## Auth and HTTP handlers (riley-cms-api/src/middleware.rs, handlers.rs) -/

/-- Authentication status set by the middleware. -/
inductive AuthStatus where
  | Public
  | Admin
deriving DecidableEq

/-- Authentication configuration section. -/
structure AuthConfig where
  git_token : Option String
  api_token : Option String
deriving DecidableEq

/-- Model of ConfigValue resolve from config.rs: a value of the form
env:NAME reads the environment variable NAME (a missing variable is a
configuration error), any other value is a literal. -/
def resolve_value (env : String → Option String) (v : String) : Except String String :=
  if isCharPrefix ("env:".data) v.data then
    match env (String.mk (v.data.drop 4)) with
    | some value => Except.ok value
    | none => Except.error (String.mk (v.data.drop 4))
  else Except.ok v

/-- Model of Rust strip_prefix with the literal Bearer prefix: the header
value after the seven prefix characters, when the prefix matches. -/
def stripBearer (h : String) : Option String :=
  if isCharPrefix ("Bearer ".data) h.data then some (String.mk (h.data.drop 7))
  else none

/-- Model of auth_middleware from middleware.rs: resolve the configured
api_token, read the Authorization header, strip the Bearer prefix, trim the
presented token, and compare SHA-256 digests of the presented and expected
tokens.  The digest parameter stands for the sha2 crate function; the
constant-time comparison of the two digests is digest equality. -/
def auth_middleware (digest : String → List Nat) (env : String → Option String)
    (auth : Option AuthConfig) (auth_header : Option String) : AuthStatus :=
  match auth with
  | none => AuthStatus.Public
  | some ac =>
    match ac.api_token with
    | none => AuthStatus.Public
    | some token_config =>
      match resolve_value env token_config with
      | Except.error _ => AuthStatus.Public
      | Except.ok expected_token =>
        match auth_header with
        | none => AuthStatus.Public
        | some auth_str =>
          match stripBearer auth_str with
          | none => AuthStatus.Public
          | some provided_token =>
            if digest (strTrim provided_token) = digest expected_token then
              AuthStatus.Admin
            else AuthStatus.Public

/-- Model of is_content_visible from handlers.rs: admins see everything;
for the public, drafts and scheduled content are invisible. -/
def is_content_visible (goes_live_at : Option Int) (auth_status : AuthStatus)
    (now : Int) : Bool :=
  if auth_status = AuthStatus.Admin then true
  else
    match goes_live_at with
    | none => false
    | some date => if date > now then false else true

/-- The body of an HTTP response, as far as the modelled handlers build
one. -/
inductive RespBody where
  | error_json (msg : String)
  | post_json (p : Post)
  | series_json (s : Series)
deriving DecidableEq

/-- An HTTP response: status code and body. -/
structure Resp where
  status : Nat
  body : RespBody
deriving DecidableEq

/-- Model of not_found_response from handlers.rs. -/
def not_found_response (slug kind : String) : Resp :=
  ⟨404, RespBody.error_json (kind ++ " not found: " ++ slug)⟩

/-- Model of the get_post handler from handlers.rs: look the slug up in
the cache; a missing slug and a present but invisible post produce the
same not-found response. -/
def get_post_handler (posts : List Post) (slug : String) (auth_status : AuthStatus)
    (now : Int) : Resp :=
  match get_post posts slug with
  | some post =>
    if is_content_visible post.goes_live_at auth_status now = false then
      not_found_response slug "Post"
    else ⟨200, RespBody.post_json post⟩
  | none => not_found_response slug "Post"

/-- Model of the get_series handler from handlers.rs. -/
def get_series_handler (posts : List Post) (series : List SeriesData) (slug : String)
    (auth_status : AuthStatus) (now : Int) : Resp :=
  match get_series posts series slug with
  | some s =>
    if is_content_visible s.goes_live_at auth_status now = false then
      not_found_response slug "Series"
    else ⟨200, RespBody.series_json s⟩
  | none => not_found_response slug "Series"

/-! ## Git CGI bridge (riley-cms-core/src/git.rs, riley-cms-api handlers.rs) -/

/-- The error message built by the stdin-feeder task of run_cgi when the
running byte count exceeds max_body_size. -/
def too_large_msg (total max_body_size : Nat) : String :=
  "Request body too large (" ++ toString total ++ " bytes exceeds max " ++
    toString max_body_size ++ " bytes)"

/-- Model of the stdin-feeder task of GitBackend run_cgi: stream the body
chunks to the child stdin, keeping a running byte count; a chunk that
would push the count past max_body_size is not written and the task stops
with the body-too-large error.  The result is the byte list written to the
child stdin and the error, if any. -/
def feed_stdin_go (max_body_size : Nat) (total : Nat) :
    List (List Nat) → List Nat × Option String
  | [] => ([], none)
  | chunk :: rest =>
    let total' := total + chunk.length
    if total' > max_body_size then
      ([], some (too_large_msg total' max_body_size))
    else
      let r := feed_stdin_go max_body_size total' rest
      (chunk ++ r.1, r.2)

/-- The stdin-feeder run from an initial byte count of zero. -/
def feed_stdin (chunks : List (List Nat)) (max_body_size : Nat) :
    List Nat × Option String :=
  feed_stdin_go max_body_size 0 chunks

/-- Display form of the Git error variant carrying the message (error.rs
formats the variant as the prefix Git error followed by the message). -/
def error_display (msg : String) : String := "Git error: " ++ msg

/-- Model of the error arm of git_handler from handlers.rs: the handler
returns 413 when the displayed error text has the words exceeds maximum as
a substring, and 500 otherwise. -/
def git_error_status (e : String) : Nat :=
  if substrOccurs "exceeds maximum" e then 413 else 500

/-- Model of is_valid_git_path from handlers.rs: reject a path containing
the double dot, and allow only ASCII alphanumeric characters and the
characters of the class given in the source. -/
def is_valid_git_path (path : String) : Bool :=
  if substrOccurs ".." path then false
  else path.data.all (fun c => c.isAlphanum || ("-_./=?&+".data).contains c)

/-- One observable step of git_handler, in the order the source performs
them. -/
inductive GitStep where
  | path_check
  | auth_check
  | repo_check
  | cgi_run
deriving DecidableEq

/-- Model of the sequential prefix of git_handler from handlers.rs: path
validation, then Basic-auth, then repository validation, then the CGI run.
The outcome of the Basic-auth comparison and of the repository check are
parameters; the result is the list of steps performed and the response
status (the status of the CGI-run branch is that of the CGI response and
is represented here by 200). -/
def git_handler_steps (path : String) (auth_ok : Bool) (repo_ok : Bool) :
    List GitStep × Nat :=
  if is_valid_git_path path = false then ([GitStep.path_check], 400)
  else if auth_ok = false then ([GitStep.path_check, GitStep.auth_check], 401)
  else if repo_ok = false then
    ([GitStep.path_check, GitStep.auth_check, GitStep.repo_check], 404)
  else ([GitStep.path_check, GitStep.auth_check, GitStep.repo_check, GitStep.cgi_run], 200)

/-! ## Webhook dispatch (send_webhook in riley-cms-core/src/lib.rs) -/

/-- The parts of a parsed webhook URL used by send_webhook. -/
structure UrlParts where
  scheme : String
  host : Option String
  port : Option Nat
deriving DecidableEq

/-- A resolved socket address. -/
structure SockAddr where
  ip : IpAddr
  port : Nat
deriving DecidableEq

/-- The observable outcome of the validation phase of send_webhook:
either the function returns without building an HTTP client, or it builds
a client pinned to the selected address and performs the POST attempts. -/
inductive WebhookOutcome where
  | aborted
  | connect_pinned (addr : SockAddr)
deriving DecidableEq

/-- Model of the validation phase of send_webhook from lib.rs: URL parse
(none models a parse error), scheme check, host check, DNS resolution
(none models a resolver error), then selection of the first resolved
address whose IP passes is_safe_ip.  Only in the connect_pinned outcome is
a client built and any HTTP attempted. -/
def send_webhook_plan (parsed : Option UrlParts)
    (resolved : Option (List SockAddr)) : WebhookOutcome :=
  match parsed with
  | none => WebhookOutcome.aborted
  | some u =>
    if u.scheme ≠ "http" ∧ u.scheme ≠ "https" then WebhookOutcome.aborted
    else
      match u.host with
      | none => WebhookOutcome.aborted
      | some _ =>
        match resolved with
        | none => WebhookOutcome.aborted
        | some addrs =>
          match addrs.find? (fun a => is_safe_ip a.ip) with
          | none => WebhookOutcome.aborted
          | some a => WebhookOutcome.connect_pinned a

/-! ## Helper lemmas on the string comparison -/

/-- The comparison is reflexive on equality. -/
theorem charListCmp_eq_iff (l1 : List Char) :
    ∀ l2, charListCmp l1 l2 = Ordering.eq ↔ l1 = l2 := by
  induction l1 with
  | nil => intro l2; cases l2 <;> simp [charListCmp]
  | cons a as ih =>
    intro l2
    cases l2 with
    | nil => simp [charListCmp]
    | cons b bs =>
      simp only [charListCmp]
      by_cases h1 : a < b
      · rw [if_pos h1]
        constructor
        · intro h; exact absurd h (by simp)
        · rintro ⟨rfl, rfl⟩; exact absurd h1 (lt_irrefl a)
      · rw [if_neg h1]
        by_cases h2 : b < a
        · rw [if_pos h2]
          constructor
          · intro h; exact absurd h (by simp)
          · rintro ⟨rfl, rfl⟩; exact absurd h2 (lt_irrefl a)
        · rw [if_neg h2]
          have hab : a = b := le_antisymm (not_lt.mp h2) (not_lt.mp h1)
          subst hab
          simp [ih bs]

/-- Swapping the arguments swaps the ordering. -/
theorem charListCmp_swap (l1 : List Char) :
    ∀ l2, charListCmp l2 l1 = (charListCmp l1 l2).swap := by
  induction l1 with
  | nil => intro l2; cases l2 <;> simp [charListCmp, Ordering.swap]
  | cons a as ih =>
    intro l2
    cases l2 with
    | nil => simp [charListCmp, Ordering.swap]
    | cons b bs =>
      simp only [charListCmp]
      rcases lt_trichotomy a b with h | h | h
      · simp [h, lt_asymm h, Ordering.swap]
      · subst h
        simp only [if_neg (lt_irrefl a)]
        exact ih bs
      · simp [h, lt_asymm h, Ordering.swap]

/-- Transitivity of the less-or-equal reading of the comparison. -/
theorem charListCmp_le_trans :
    ∀ (l1 l2 l3 : List Char), charListCmp l1 l2 ≠ Ordering.gt →
      charListCmp l2 l3 ≠ Ordering.gt → charListCmp l1 l3 ≠ Ordering.gt
  | [], _, l3, _, _ => by cases l3 <;> simp [charListCmp]
  | _ :: _, [], _, h1, _ => absurd rfl h1
  | _ :: _, _ :: _, [], _, h2 => absurd rfl h2
  | a :: as, b :: bs, c :: cs, h1, h2 => by
    simp only [charListCmp] at h1 h2 ⊢
    have hab : a < b ∨ (a = b ∧ charListCmp as bs ≠ Ordering.gt) := by
      by_cases h : a < b
      · exact Or.inl h
      · rw [if_neg h] at h1
        by_cases h' : b < a
        · rw [if_pos h'] at h1; exact absurd rfl h1
        · rw [if_neg h'] at h1
          exact Or.inr ⟨le_antisymm (not_lt.mp h') (not_lt.mp h), h1⟩
    have hbc : b < c ∨ (b = c ∧ charListCmp bs cs ≠ Ordering.gt) := by
      by_cases h : b < c
      · exact Or.inl h
      · rw [if_neg h] at h2
        by_cases h' : c < b
        · rw [if_pos h'] at h2; exact absurd rfl h2
        · rw [if_neg h'] at h2
          exact Or.inr ⟨le_antisymm (not_lt.mp h') (not_lt.mp h), h2⟩
    rcases hab with hab | ⟨hab, hrec1⟩
    · rcases hbc with hbc | ⟨hbc, _⟩
      · rw [if_pos (lt_trans hab hbc)]; simp
      · subst hbc; rw [if_pos hab]; simp
    · subst hab
      rcases hbc with hbc | ⟨hbc, hrec2⟩
      · rw [if_pos hbc]; simp
      · subst hbc
        rw [if_neg (lt_irrefl a), if_neg (lt_irrefl a)]
        exact charListCmp_le_trans as bs cs hrec1 hrec2

/-- Unfolding of the boolean less-or-equal on strings. -/
theorem strLeB_eq_true_iff (a b : String) :
    strLeB a b = true ↔ charListCmp a.data b.data ≠ Ordering.gt := by
  unfold strLeB strCmp
  cases charListCmp a.data b.data <;> simp

/-- The string order is antisymmetric. -/
theorem strLeB_antisymm {a b : String} (h1 : strLeB a b = true)
    (h2 : strLeB b a = true) : a = b := by
  rw [strLeB_eq_true_iff] at h1 h2
  rw [charListCmp_swap] at h2
  cases a with
  | mk l1 =>
    cases b with
    | mk l2 =>
      have : charListCmp l1 l2 = Ordering.eq := by
        cases h : charListCmp l1 l2 with
        | eq => rfl
        | lt => rw [h] at h2; exact absurd rfl h2
        | gt => exact absurd h h1
      have := (charListCmp_eq_iff l1 l2).mp this
      subst this
      rfl

/-- The string order is transitive. -/
theorem strLeB_trans {a b c : String} (h1 : strLeB a b = true)
    (h2 : strLeB b c = true) : strLeB a c = true := by
  rw [strLeB_eq_true_iff] at h1 h2 ⊢
  exact charListCmp_le_trans _ _ _ h1 h2

/-- The string order is total. -/
theorem strLeB_total (a b : String) : strLeB a b = true ∨ strLeB b a = true := by
  rw [strLeB_eq_true_iff, strLeB_eq_true_iff, charListCmp_swap a.data b.data]
  cases h : charListCmp a.data b.data <;> simp [Ordering.swap]

/-- Two permuted key lists sort to the same list. -/
theorem sortStr_eq_of_perm {l1 l2 : List String} (h : l1.Perm l2) :
    sortStr l1 = sortStr l2 := by
  have anti : IsAntisymm String (fun a b => strLeB a b = true) :=
    ⟨fun _ _ h1 h2 => strLeB_antisymm h1 h2⟩
  have tot : IsTotal String (fun a b => strLeB a b = true) :=
    ⟨fun a b => strLeB_total a b⟩
  have tr : IsTrans String (fun a b => strLeB a b = true) :=
    ⟨fun _ _ _ h1 h2 => strLeB_trans h1 h2⟩
  exact @List.eq_of_perm_of_sorted _ _ anti _ _
    ((List.perm_insertionSort _ l1).trans (h.trans (List.perm_insertionSort _ l2).symm))
    (@List.sorted_insertionSort _ _ _ tot tr l1)
    (@List.sorted_insertionSort _ _ _ tot tr l2)

/-! ## Helper lemmas on keyed lookup -/

/-- Looking up the key of a member of a list with unique keys finds that
member. -/
theorem find?_key_of_mem {α : Type} (key : α → String) {l : List α} {a : α}
    (ha : a ∈ l) (nd : (l.map key).Nodup) :
    l.find? (fun x => key x == key a) = some a := by
  induction l with
  | nil => cases ha
  | cons x t ih =>
    rcases List.mem_cons.mp ha with rfl | hat
    · simp [List.find?]
    · have hne : key x ≠ key a := by
        intro he
        have : key a ∈ t.map key := List.mem_map.mpr ⟨a, hat, rfl⟩
        rw [← he] at this
        exact (List.nodup_cons.mp (by simpa using nd)).1 this
      have : (key x == key a) = false := beq_eq_false_iff_ne.mpr hne
      rw [List.find?_cons, this]
      exact ih hat (List.nodup_cons.mp (by simpa using nd)).2

/-- Keyed lookup is invariant under permutation when the keys are unique. -/
theorem find?_key_perm {α : Type} (key : α → String) {l1 l2 : List α}
    (h : l1.Perm l2) (nd : (l1.map key).Nodup) (s : String) :
    l1.find? (fun x => key x == s) = l2.find? (fun x => key x == s) := by
  induction h with
  | nil => rfl
  | cons x hTail ih =>
    rw [List.find?_cons, List.find?_cons]
    cases hx : (key x == s)
    · exact ih (List.nodup_cons.mp (by simpa using nd)).2
    · rfl
  | swap x y l =>
    rw [List.find?_cons, List.find?_cons, List.find?_cons, List.find?_cons]
    cases hx : (key x == s) <;> cases hy : (key y == s)
    · rfl
    · rfl
    · rfl
    · exfalso
      have hxs : key x = s := beq_iff_eq.mp hx
      have hys : key y = s := beq_iff_eq.mp hy
      have : key y ∈ (x :: l).map key := by
        rw [List.map_cons]
        exact List.mem_cons.mpr (Or.inl (hys.trans hxs.symm))
      exact (List.nodup_cons.mp (by simpa using nd)).1 this
  | trans h1 h2 ih1 ih2 =>
    have nd2 := ((h1.map key).nodup_iff).mp nd
    exact (ih1 nd).trans (ih2 nd2)


/-! ## Helper lemmas on bit masks -/

/-- The bitwise-and of a 16-bit value with a mask whose set bits are
exactly the bits from position k up to 15 keeps the high bits and clears
the low ones. -/
theorem land_top_mask {s k : Nat} (hk : k ≤ 16) (hs : s < 65536) :
    s &&& (65536 - 2 ^ k) = s / 2 ^ k * 2 ^ k := by
  have h1 : (2:Nat) ^ k * 2 ^ (16 - k) = 65536 := by
    rw [← pow_add, Nat.add_sub_cancel' hk]
    norm_num
  have hmask : (65536 - 2 ^ k) = 2 ^ k * (2 ^ (16 - k) - 1) := by
    have h2 : (2:Nat) ^ k * (2 ^ (16 - k) - 1) = 2 ^ k * 2 ^ (16 - k) - 2 ^ k := by
      rw [Nat.mul_sub, Nat.mul_one]
    omega
  apply Nat.eq_of_testBit_eq
  intro i
  rw [Nat.testBit_land, hmask, Nat.testBit_mul_pow_two, Nat.testBit_two_pow_sub_one,
    mul_comm (s / 2 ^ k), Nat.testBit_mul_pow_two, ← Nat.shiftRight_eq_div_pow,
    Nat.testBit_shiftRight]
  by_cases hik : k ≤ i
  · by_cases hi16 : i < 16
    · have e1 : i - k < 16 - k := by omega
      have e2 : k + (i - k) = i := by omega
      simp [hik, e1, e2, ge_iff_le]
    · have hbit : s.testBit (k + (i - k)) = false := by
        apply Nat.testBit_lt_two_pow
        calc s < 65536 := hs
        _ = 2 ^ 16 := by norm_num
        _ ≤ 2 ^ (k + (i - k)) := Nat.pow_le_pow_right (by norm_num) (by omega)
      have e1 : ¬ (i - k < 16 - k) := by omega
      have hbit2 : s.testBit i = false := by
        have e2 : k + (i - k) = i := by omega
        rw [← e2]
        exact hbit
      simp [hik, e1, hbit2, ge_iff_le]
  · simp [hik, ge_iff_le]

/-- Multicast mask bridge: the ff00 segment mask test is the ff00 range
test on 16-bit values. -/
theorem mask_ff00_iff {s : Nat} (hs : s < 65536) :
    ((s &&& 0xff00) == 0xff00) = true ↔ 0xff00 ≤ s := by
  have h : s &&& 0xff00 = s / 256 * 256 := by
    have h0 := land_top_mask (k := 8) (by omega) hs
    norm_num at h0
    exact h0
  rw [h, beq_iff_eq]
  omega

/-- Unique-local mask bridge: the fe00 mask test against fc00 is the
fc00::/7 range test on 16-bit values. -/
theorem mask_fc00_iff {s : Nat} (hs : s < 65536) :
    ((s &&& 0xfe00) == 0xfc00) = true ↔ (0xfc00 ≤ s ∧ s ≤ 0xfdff) := by
  have h : s &&& 0xfe00 = s / 512 * 512 := by
    have h0 := land_top_mask (k := 9) (by omega) hs
    norm_num at h0
    exact h0
  rw [h, beq_iff_eq]
  omega

/-- Link-local mask bridge: the ffc0 mask test against fe80 is the
fe80::/10 range test on 16-bit values. -/
theorem mask_fe80_iff {s : Nat} (hs : s < 65536) :
    ((s &&& 0xffc0) == 0xfe80) = true ↔ (0xfe80 ≤ s ∧ s ≤ 0xfebf) := by
  have h : s &&& 0xffc0 = s / 64 * 64 := by
    have h0 := land_top_mask (k := 6) (by omega) hs
    norm_num at h0
    exact h0
  rw [h, beq_iff_eq]
  omega

/-- Site-local mask bridge: the ffc0 mask test against fec0 is the
fec0::/10 range test on 16-bit values. -/
theorem mask_fec0_iff {s : Nat} (hs : s < 65536) :
    ((s &&& 0xffc0) == 0xfec0) = true ↔ (0xfec0 ≤ s ∧ s ≤ 0xfeff) := by
  have h : s &&& 0xffc0 = s / 64 * 64 := by
    have h0 := land_top_mask (k := 6) (by omega) hs
    norm_num at h0
    exact h0
  rw [h, beq_iff_eq]
  omega

/-- The IPv4 arm of the safety filter accepts exactly the complement of
the unsafe classes the spec lists. -/
theorem is_safe_ipv4_iff (v : Ipv4) :
    is_safe_ipv4 v = true ↔ ¬ spec_unsafe_v4 v := by
  unfold is_safe_ipv4 spec_unsafe_v4 Ipv4.is_loopback Ipv4.is_unspecified
    Ipv4.is_multicast
  split_ifs with h1 h2 h3 h4 h5 h6 <;>
    simp_all [Bool.or_eq_true, Bool.and_eq_true, beq_iff_eq, decide_eq_true_eq] <;>
    omega

/-- The IPv6 arm of the safety filter accepts exactly the complement of
the unsafe classes the spec lists; only the first segment needs its 16-bit
bound, for the mask bridges. -/
theorem is_safe_ipv6_iff (v : Ipv6) (w0 : v.s0 < 65536) :
    is_safe_ipv6 v = true ↔ ¬ spec_unsafe (IpAddr.V6 v) := by
  by_cases hm : v.s0 = 0 ∧ v.s1 = 0 ∧ v.s2 = 0 ∧ v.s3 = 0 ∧ v.s4 = 0 ∧ v.s5 = 0xffff
  · obtain ⟨h0, h1, h2, h3, h4, h5⟩ := hm
    unfold is_safe_ipv6 spec_unsafe Ipv6.is_loopback Ipv6.is_unspecified
      Ipv6.is_multicast Ipv6.to_ipv4_mapped
    simp only [h0, h1, h2, h3, h4, h5]
    norm_num
    exact is_safe_ipv4_iff _
  · have hcond : ¬ ((v.s0 == 0 && v.s1 == 0 && v.s2 == 0 && v.s3 == 0 &&
        v.s4 == 0 && v.s5 == 0xffff) = true) := by
      simpa [Bool.and_eq_true, beq_iff_eq, and_assoc] using hm
    have hmap : v.to_ipv4_mapped = none := by
      unfold Ipv6.to_ipv4_mapped
      rw [if_neg hcond]
    simp only [is_safe_ipv6, spec_unsafe, Ipv6.is_loopback, Ipv6.is_unspecified,
      Ipv6.is_multicast, hmap, if_neg hm]
    have hmc := mask_ff00_iff w0
    have h1c := mask_fc00_iff w0
    have h2c := mask_fe80_iff w0
    have h3c := mask_fec0_iff w0
    split_ifs with hE h1 h2 h3
    · simp only [Bool.or_eq_true, Bool.and_eq_true, beq_iff_eq, hmc] at hE
      simp only [Bool.false_eq_true, false_iff, not_not]
      omega
    · simp only [h1c] at h1
      simp only [Bool.false_eq_true, false_iff, not_not]
      omega
    · simp only [h2c] at h2
      simp only [Bool.false_eq_true, false_iff, not_not]
      omega
    · simp only [h3c] at h3
      simp only [Bool.false_eq_true, false_iff, not_not]
      omega
    · simp only [Bool.or_eq_true, Bool.and_eq_true, beq_iff_eq, hmc] at hE
      simp only [h1c] at h1
      simp only [h2c] at h2
      simp only [h3c] at h3
      simp only [eq_self_iff_true, true_iff]
      omega

/-- C5: for every IPv4 address X, is_safe_ip on the IPv4-mapped form
::ffff:X agrees with is_safe_ip on X, and is_safe_ip returns false exactly
on the unsafe classes the spec lists (loopback, unspecified, multicast,
10/8, 172.16/12, 192.168/16, 169.254/16, 100.64/10, fc00::/7, fe80::/10,
fec0::/10) and true on all other addresses. -/
theorem C5_safe_ip_canonical_and_classes :
    (∀ a b c d : Nat, b < 256 → d < 256 →
      is_safe_ip (IpAddr.V6 (mappedV6 a b c d)) = is_safe_ip (IpAddr.V4 ⟨a, b, c, d⟩))
    ∧ (∀ ip : IpAddr, ip_wf ip → (is_safe_ip ip = true ↔ ¬ spec_unsafe ip)) := by
  constructor
  · intro a b c d hb hd
    show is_safe_ipv6 (mappedV6 a b c d) = is_safe_ipv4 ⟨a, b, c, d⟩
    have hmap : (mappedV6 a b c d).to_ipv4_mapped = some ⟨a, b, c, d⟩ := by
      simp only [mappedV6, Ipv6.to_ipv4_mapped]
      norm_num [Ipv4.mk.injEq]
      omega
    have hE : (Ipv6.is_loopback (mappedV6 a b c d) ||
        Ipv6.is_unspecified (mappedV6 a b c d) ||
        Ipv6.is_multicast (mappedV6 a b c d)) = false := by
      simp [Ipv6.is_loopback, Ipv6.is_unspecified, Ipv6.is_multicast, mappedV6]
    simp only [is_safe_ipv6, hmap, hE]
    simp
  · intro ip hwf
    cases ip with
    | V4 v => exact is_safe_ipv4_iff v
    | V6 v => exact is_safe_ipv6_iff v hwf.1

/-- Witness for C5 at concrete addresses: the mapped loopback agrees with
the IPv4 loopback, and a public address satisfies the class
characterization. -/
theorem C5_safe_ip_witness :
    (is_safe_ip (IpAddr.V6 (mappedV6 127 0 0 1)) = is_safe_ip (IpAddr.V4 ⟨127, 0, 0, 1⟩))
    ∧ (is_safe_ip (IpAddr.V4 ⟨8, 8, 8, 8⟩) = true ↔ ¬ spec_unsafe (IpAddr.V4 ⟨8, 8, 8, 8⟩)) :=
  ⟨C5_safe_ip_canonical_and_classes.1 127 0 0 1 (by decide) (by decide),
    C5_safe_ip_canonical_and_classes.2 (IpAddr.V4 ⟨8, 8, 8, 8⟩) (by norm_num [ip_wf])⟩

/-- C4: when every resolved socket address fails the IP safety check,
send_webhook returns before building a client or attempting any HTTP
request; when some address passes, the first passing address is selected
and pinned. -/
theorem C4_webhook_first_safe_or_abort (u : UrlParts) (addrs : List SockAddr)
    (hscheme : u.scheme = "http" ∨ u.scheme = "https")
    (hhost : u.host.isSome = true) :
    ((∀ a ∈ addrs, is_safe_ip a.ip = false) →
      send_webhook_plan (some u) (some addrs) = WebhookOutcome.aborted)
    ∧ (∀ a, addrs.find? (fun x => is_safe_ip x.ip) = some a →
      send_webhook_plan (some u) (some addrs) = WebhookOutcome.connect_pinned a) := by
  have hs : ¬ (u.scheme ≠ "http" ∧ u.scheme ≠ "https") := by
    rcases hscheme with h | h <;> simp [h]
  obtain ⟨h, hh⟩ := Option.isSome_iff_exists.mp hhost
  constructor
  · intro hall
    have hfind : addrs.find? (fun x => is_safe_ip x.ip) = none :=
      List.find?_eq_none.mpr (fun x hx => by simp [hall x hx])
    simp [send_webhook_plan, if_neg hs, hh, hfind]
  · intro a hfind
    simp [send_webhook_plan, if_neg hs, hh, hfind]

/-- Witness for C4: a host resolving only to loopback and private
addresses is aborted; with a public address present, the first safe
address is the one pinned. -/
theorem C4_webhook_witness :
    send_webhook_plan (some ⟨"https", some "hook.example", none⟩)
      (some [⟨IpAddr.V4 ⟨127, 0, 0, 1⟩, 443⟩, ⟨IpAddr.V4 ⟨10, 0, 0, 1⟩, 443⟩]) =
      WebhookOutcome.aborted
    ∧ send_webhook_plan (some ⟨"https", some "hook.example", none⟩)
      (some [⟨IpAddr.V4 ⟨192, 168, 1, 1⟩, 443⟩, ⟨IpAddr.V4 ⟨1, 1, 1, 1⟩, 443⟩,
             ⟨IpAddr.V4 ⟨9, 9, 9, 9⟩, 443⟩]) =
      WebhookOutcome.connect_pinned ⟨IpAddr.V4 ⟨1, 1, 1, 1⟩, 443⟩ :=
  ⟨(C4_webhook_first_safe_or_abort ⟨"https", some "hook.example", none⟩ _
      (Or.inr rfl) rfl).1 (by decide),
   (C4_webhook_first_safe_or_abort ⟨"https", some "hook.example", none⟩ _
      (Or.inr rfl) rfl).2 _ (by decide)⟩

/-- C10: a Git path containing a double dot or a character outside the
allowed class is rejected with 400 before the Basic-auth check, whatever
the auth and repository checks would have said; no auth comparison step is
performed. -/
theorem C10_git_path_rejected_before_auth (path : String)
    (hbad : substrOccurs ".." path = true ∨
      ∃ c ∈ path.data, ¬(c.isAlphanum = true ∨ ("-_./=?&+".data).contains c = true)) :
    ∀ auth_ok repo_ok : Bool,
      git_handler_steps path auth_ok repo_ok = ([GitStep.path_check], 400) ∧
      GitStep.auth_check ∉ (git_handler_steps path auth_ok repo_ok).1 := by
  have hval : is_valid_git_path path = false := by
    unfold is_valid_git_path
    by_cases hdd : substrOccurs ".." path
    · simp [hdd]
    · simp only [hdd, Bool.false_eq_true, if_false]
      rcases hbad with h | ⟨c, hc, hnc⟩
      · exact absurd h hdd
      · rw [List.all_eq_false]
        exact ⟨c, hc, by simpa [Bool.or_eq_true] using hnc⟩
  intro auth_ok repo_ok
  constructor
  · unfold git_handler_steps
    rw [if_pos hval]
  · unfold git_handler_steps
    rw [if_pos hval]
    simp

/-- Witness for C10 at a traversal path. -/
theorem C10_git_path_witness :
    git_handler_steps "../etc/passwd" true true = ([GitStep.path_check], 400) ∧
    GitStep.auth_check ∉ (git_handler_steps "../etc/passwd" true true).1 :=
  C10_git_path_rejected_before_auth "../etc/passwd" (Or.inl (by decide)) true true

/-- The stdin-feeder never writes more bytes than max_body_size, starting
from any running count within the limit. -/
theorem feed_stdin_go_writes_le (max_body_size : Nat) :
    ∀ (chunks : List (List Nat)) (total : Nat), total ≤ max_body_size →
      total + (feed_stdin_go max_body_size total chunks).1.length ≤ max_body_size
  | [], total, h => by simpa [feed_stdin_go] using h
  | chunk :: rest, total, h => by
    unfold feed_stdin_go
    by_cases hc : total + chunk.length > max_body_size
    · simpa [hc] using h
    · have ih := feed_stdin_go_writes_le max_body_size rest (total + chunk.length)
        (by omega)
      simp only [if_neg hc, List.length_append]
      omega

/-- No bytes beyond the limit ever reach the child stdin. -/
theorem feed_stdin_writes_le (chunks : List (List Nat)) (max_body_size : Nat) :
    (feed_stdin chunks max_body_size).1.length ≤ max_body_size := by
  have := feed_stdin_go_writes_le max_body_size chunks 0 (Nat.zero_le _)
  simpa [feed_stdin] using this

/-- C1, at the failing input: an eleven-byte body against a ten-byte limit
is not written to the child stdin at all and the feeder stops with the
body-too-large error, but the displayed error text does not contain the
words exceeds maximum that git_handler greps for, so the handler answers
500, not the 413 the spec promises. -/
theorem C1_body_too_large_maps_to_500 :
    feed_stdin [List.replicate 11 0] 10 = ([], some (too_large_msg 11 10))
    ∧ substrOccurs "exceeds max" (error_display (too_large_msg 11 10)) = true
    ∧ git_error_status (error_display (too_large_msg 11 10)) = 500 := by
  refine ⟨rfl, by decide, by decide⟩

/-- C2, at the failing input: with the configured api_token resolving to
the empty string and a request header carrying an empty Bearer token, the
middleware compares equal digests of two empty strings and tags the
request Admin, for every digest function; the spec requires an empty
resolved token to disable the auth path. -/
theorem C2_empty_api_token_matches_empty_bearer
    (digest : String → List Nat) (env : String → Option String) :
    auth_middleware digest env (some ⟨none, some ""⟩) (some "Bearer ") =
      AuthStatus.Admin := by
  show (if digest "" = digest "" then AuthStatus.Admin else AuthStatus.Public) =
    AuthStatus.Admin
  rw [if_pos rfl]

/-- C3, at the failing inputs: with a live post of slug live and a draft
of slug draft both visible, the listing places the draft first, although
the source comment and the spec put items without a date at the end; and
two posts sharing a date keep their arbitrary map order b, a instead of
the slug-ascending order a, b the spec requires. -/
theorem C3_listing_order_violations :
    ((list_posts
        [⟨"live", "t", none, "p", none, none, some 0, none, "c", none⟩,
         ⟨"draft", "t", none, "p", none, none, none, none, "c", none⟩]
        ⟨true, false, none, none⟩ 100).items.map PostSummary.slug = ["draft", "live"])
    ∧ ((list_posts
        [⟨"b", "t", none, "p", none, none, some 5, none, "c", none⟩,
         ⟨"a", "t", none, "p", none, none, some 5, none, "c", none⟩]
        ⟨false, false, none, none⟩ 100).items.map PostSummary.slug = ["b", "a"]) := by
  constructor
  · decide
  · decide

/-- C6: for a public caller, the response when the slug is absent from the
cache and the response when the entity exists but is hidden are the same
not-found response, with status 404, for posts and for series alike. -/
theorem C6_hidden_indistinguishable_from_missing
    (posts1 posts2 : List Post) (series1 series2 : List SeriesData)
    (slug : String) (p : Post) (s : Series) (now : Int)
    (hp1 : get_post posts1 slug = none)
    (hp2 : get_post posts2 slug = some p)
    (hpv : is_content_visible p.goes_live_at AuthStatus.Public now = false)
    (hs1 : get_series posts1 series1 slug = none)
    (hs2 : get_series posts2 series2 slug = some s)
    (hsv : is_content_visible s.goes_live_at AuthStatus.Public now = false) :
    get_post_handler posts1 slug AuthStatus.Public now =
      get_post_handler posts2 slug AuthStatus.Public now
    ∧ get_post_handler posts1 slug AuthStatus.Public now = not_found_response slug "Post"
    ∧ (get_post_handler posts1 slug AuthStatus.Public now).status = 404
    ∧ get_series_handler posts1 series1 slug AuthStatus.Public now =
      get_series_handler posts2 series2 slug AuthStatus.Public now
    ∧ get_series_handler posts1 series1 slug AuthStatus.Public now =
      not_found_response slug "Series"
    ∧ (get_series_handler posts1 series1 slug AuthStatus.Public now).status = 404 := by
  have e1 : get_post_handler posts1 slug AuthStatus.Public now =
      not_found_response slug "Post" := by
    unfold get_post_handler
    rw [hp1]
  have e2 : get_post_handler posts2 slug AuthStatus.Public now =
      not_found_response slug "Post" := by
    unfold get_post_handler
    simp [hp2, hpv]
  have e3 : get_series_handler posts1 series1 slug AuthStatus.Public now =
      not_found_response slug "Series" := by
    unfold get_series_handler
    rw [hs1]
  have e4 : get_series_handler posts2 series2 slug AuthStatus.Public now =
      not_found_response slug "Series" := by
    unfold get_series_handler
    simp [hs2, hsv]
  refine ⟨e1.trans e2.symm, e1, ?_, e3.trans e4.symm, e3, ?_⟩
  · rw [e1]; rfl
  · rw [e3]; rfl

/-- Witness for C6: an empty cache versus a cache holding a draft post and
a draft series under the slug secret. -/
theorem C6_hidden_witness :
    get_post_handler [] "secret" AuthStatus.Public 0 =
      get_post_handler [⟨"secret", "t", none, "p", none, none, none, none, "c", none⟩]
        "secret" AuthStatus.Public 0
    ∧ (get_post_handler [] "secret" AuthStatus.Public 0).status = 404
    ∧ get_series_handler [] [] "secret" AuthStatus.Public 0 =
      get_series_handler [] [⟨"secret", ⟨"t", none, none, none⟩, []⟩]
        "secret" AuthStatus.Public 0
    ∧ (get_series_handler [] [] "secret" AuthStatus.Public 0).status = 404 := by
  have h := C6_hidden_indistinguishable_from_missing
    [] [⟨"secret", "t", none, "p", none, none, none, none, "c", none⟩]
    [] [⟨"secret", ⟨"t", none, none, none⟩, []⟩]
    "secret"
    ⟨"secret", "t", none, "p", none, none, none, none, "c", none⟩
    ⟨"secret", "t", none, none, none, []⟩ 0
    (by decide) (by decide) (by decide) (by decide) (by decide) (by decide)
  exact ⟨h.1, h.2.2.1, h.2.2.2.1, h.2.2.2.2.2⟩

/-- C7: a post or series is in the visibility filter of the listing iff it
is live, or a draft with include_drafts, or scheduled with
include_scheduled; while the single-item lookups return the cache entry
with no visibility condition at all. -/
theorem C7_visibility_filter_and_unfiltered_lookup
    (posts : List Post) (p : Post) (series : List SeriesData) (sd : SeriesData)
    (opts : ListOptions) (now : Int)
    (hmem : p ∈ posts) (hnd : (posts.map Post.slug).Nodup)
    (hsmem : sd ∈ series) (hsnd : (series.map SeriesData.slug).Nodup) :
    (p ∈ list_posts_filtered posts opts now ↔
      ((∃ d, p.goes_live_at = some d ∧ d ≤ now) ∨
       (p.goes_live_at = none ∧ opts.include_drafts = true) ∨
       (∃ d, p.goes_live_at = some d ∧ now < d ∧ opts.include_scheduled = true)))
    ∧ (sd ∈ list_series_filtered series opts now ↔
      ((∃ d, sd.config.goes_live_at = some d ∧ d ≤ now) ∨
       (sd.config.goes_live_at = none ∧ opts.include_drafts = true) ∨
       (∃ d, sd.config.goes_live_at = some d ∧ now < d ∧ opts.include_scheduled = true)))
    ∧ get_post posts p.slug = some p
    ∧ get_series posts series sd.slug = some (seriesWithPosts posts sd) := by
  refine ⟨?_, ?_, ?_, ?_⟩
  · rw [list_posts_filtered, List.mem_filter]
    simp only [hmem, true_and]
    cases hg : p.goes_live_at with
    | none => by_cases hd : opts.include_drafts <;> simp [is_visible, hg, hd]
    | some d =>
      by_cases hl : d > now
      · by_cases hsch : opts.include_scheduled <;>
          simp [is_visible, hg, hl, hsch]
      · simp [is_visible, hg, hl]
        omega
  · rw [list_series_filtered, List.mem_filter]
    simp only [hsmem, true_and]
    cases hg : sd.config.goes_live_at with
    | none => by_cases hd : opts.include_drafts <;> simp [is_visible, hg, hd]
    | some d =>
      by_cases hl : d > now
      · by_cases hsch : opts.include_scheduled <;>
          simp [is_visible, hg, hl, hsch]
      · simp [is_visible, hg, hl]
        omega
  · exact find?_key_of_mem Post.slug hmem hnd
  · unfold get_series
    rw [find?_key_of_mem SeriesData.slug hsmem hsnd]

/-- Witness for C7: a scheduled post is listed when include_scheduled is
set, and the lookup returns the scheduled entity unconditionally. -/
theorem C7_visibility_witness :
    (⟨"future", "t", none, "p", none, none, some 200, none, "c", none⟩ ∈
      list_posts_filtered
        [⟨"future", "t", none, "p", none, none, some 200, none, "c", none⟩]
        ⟨false, true, none, none⟩ 100)
    ∧ get_post [⟨"future", "t", none, "p", none, none, some 200, none, "c", none⟩]
        "future" =
      some ⟨"future", "t", none, "p", none, none, some 200, none, "c", none⟩ := by
  have h := C7_visibility_filter_and_unfiltered_lookup
    [⟨"future", "t", none, "p", none, none, some 200, none, "c", none⟩]
    ⟨"future", "t", none, "p", none, none, some 200, none, "c", none⟩
    [⟨"s", ⟨"t", none, none, none⟩, []⟩] ⟨"s", ⟨"t", none, none, none⟩, []⟩
    ⟨false, true, none, none⟩ 100
    (by decide) (by decide) (by decide) (by decide)
  refine ⟨?_, h.2.2.1⟩
  exact h.1.mpr (Or.inr (Or.inr ⟨200, rfl, by norm_num, rfl⟩))

/-- C9: the effective limit is the requested limit clamped to 500 with
default 50, the offset defaults to 0, the total is the number of visible
items, a zero limit yields no items, and an offset at or past the total
yields no items. -/
theorem C9_pagination_bounds (posts : List Post) (opts : ListOptions) (now : Int) :
    (list_posts posts opts now).limit = min (opts.limit.getD 50) 500
    ∧ (list_posts posts opts now).offset = opts.offset.getD 0
    ∧ (list_posts posts opts now).total = (list_posts_filtered posts opts now).length
    ∧ (opts.limit = some 0 → (list_posts posts opts now).items = [])
    ∧ ((list_posts posts opts now).total ≤ opts.offset.getD 0 →
        (list_posts posts opts now).items = []) := by
  refine ⟨rfl, rfl, rfl, ?_, ?_⟩
  · intro h0
    simp [list_posts, h0, MAX_PAGE_SIZE]
  · intro hoff
    have hlen : (sortByCmp postCmp (list_posts_filtered posts opts now)).length =
        (list_posts_filtered posts opts now).length :=
      (List.perm_insertionSort _ _).length_eq
    have hdrop : (sortByCmp postCmp (list_posts_filtered posts opts now)).drop
        (opts.offset.getD 0) = [] := by
      apply List.drop_eq_nil_of_le
      rw [hlen]
      exact hoff
    simp [list_posts, hdrop]

/-- Witness for C9: one live post; a zero limit and an offset past the
total each yield an empty page, and the limit field takes its default. -/
theorem C9_pagination_witness :
    (list_posts [⟨"a", "t", none, "p", none, none, some 0, none, "c", none⟩]
      ⟨false, false, some 0, none⟩ 100).items = []
    ∧ (list_posts [⟨"a", "t", none, "p", none, none, some 0, none, "c", none⟩]
      ⟨false, false, none, some 5⟩ 100).items = []
    ∧ (list_posts [⟨"a", "t", none, "p", none, none, some 0, none, "c", none⟩]
      ⟨false, false, none, some 5⟩ 100).limit =
        min ((none : Option Nat).getD 50) 500 := by
  refine ⟨(C9_pagination_bounds
      [⟨"a", "t", none, "p", none, none, some 0, none, "c", none⟩]
      ⟨false, false, some 0, none⟩ 100).2.2.2.1 rfl,
    (C9_pagination_bounds
      [⟨"a", "t", none, "p", none, none, some 0, none, "c", none⟩]
      ⟨false, false, none, some 5⟩ 100).2.2.2.2 (by decide),
    (C9_pagination_bounds
      [⟨"a", "t", none, "p", none, none, some 0, none, "c", none⟩]
      ⟨false, false, none, some 5⟩ 100).1⟩

/-- Hex encoding of a byte list has two characters per byte. -/
theorem flatMap_hexByte_length (bs : List Nat) :
    (bs.flatMap hexByte).length = 2 * bs.length := by
  induction bs with
  | nil => rfl
  | cons b t ih =>
    simp only [List.flatMap_cons, List.length_append, ih, hexByte, List.length_cons,
      List.length_nil]
    omega

/-- C8: the etag is invariant under re-ordering of the post map and series
map entries (it is a function of the maps, not of iteration order), and
its string length is exactly 66 characters whenever the digest produces 32
bytes, as SHA-256 does. -/
theorem C8_etag_deterministic_and_length (digest : List Nat → List Nat)
    (hdig : ∀ bs, (digest bs).length = 32)
    (posts posts' : List Post) (series series' : List SeriesData)
    (hp : posts.Perm posts') (hs : series.Perm series')
    (hnd : (posts.map Post.slug).Nodup) :
    compute_etag digest posts series = compute_etag digest posts' series'
    ∧ (compute_etag digest posts series).length = 66 := by
  constructor
  · unfold compute_etag
    rw [sortStr_eq_of_perm (hp.map Post.slug), sortStr_eq_of_perm (hs.map SeriesData.slug)]
    have hfun : (fun key => match get_post posts key with
        | some post => strBytes key ++ strBytes post.content
        | none => ([] : List Nat)) =
        (fun key => match get_post posts' key with
        | some post => strBytes key ++ strBytes post.content
        | none => ([] : List Nat)) := by
      funext k
      rw [show get_post posts k = get_post posts' k from find?_key_perm Post.slug hp hnd k]
    rw [hfun]
  · unfold compute_etag
    rw [String.length_append, String.length_append]
    have hhex : ∀ x : List Nat, (hexEncode (digest x)).length = 64 := by
      intro x
      show ((digest x).flatMap hexByte).length = 64
      rw [flatMap_hexByte_length, hdig x]
    rw [hhex]
    decide

/-- Witness for C8: two orderings of a two-post map give the same etag, of
length 66, with a constant 32-byte digest standing in for SHA-256. -/
theorem C8_etag_witness :
    compute_etag (fun _ => List.replicate 32 0)
      [⟨"a", "t", none, "p", none, none, none, none, "A", none⟩,
       ⟨"b", "t", none, "p", none, none, none, none, "B", none⟩]
      [] =
    compute_etag (fun _ => List.replicate 32 0)
      [⟨"b", "t", none, "p", none, none, none, none, "B", none⟩,
       ⟨"a", "t", none, "p", none, none, none, none, "A", none⟩]
      []
    ∧ (compute_etag (fun _ => List.replicate 32 0)
      [⟨"a", "t", none, "p", none, none, none, none, "A", none⟩,
       ⟨"b", "t", none, "p", none, none, none, none, "B", none⟩]
      []).length = 66 :=
  C8_etag_deterministic_and_length (fun _ => List.replicate 32 0)
    (fun _ => by simp)
    [⟨"a", "t", none, "p", none, none, none, none, "A", none⟩,
     ⟨"b", "t", none, "p", none, none, none, none, "B", none⟩]
    [⟨"b", "t", none, "p", none, none, none, none, "B", none⟩,
     ⟨"a", "t", none, "p", none, none, none, none, "A", none⟩]
    [] []
    (List.Perm.swap
      (⟨"b", "t", none, "p", none, none, none, none, "B", none⟩ : Post)
      (⟨"a", "t", none, "p", none, none, none, none, "A", none⟩ : Post) [])
    (List.Perm.refl []) (by decide)
